import Mathlib

/-!
Shallow embedding of the PostgreSQL-backed versioned game-state store.
The two relations (`games`, `game_results`) are lists of rows, each store
operation is a pure function on that state, and backend query failures are
injected through explicit Boolean flags.  Each operation returns the
post-state together with the error, if any, that the operation surfaces to
its caller; an error that the source code catches and merely logs is
modelled as `none` (no caller-visible failure).
-/

namespace PGStore

/-- One row of the `games` relation: columns `game_id`, `players`, `save_id`,
`game` (the opaque serialized state document), `status` (text, default
value `running`) and `created_time` (modelled as an integer timestamp in
seconds). -/
structure GameRow where
  game_id : String
  players : Nat
  save_id : Nat
  game : String
  status : String
  created_time : Int
  deriving DecidableEq, Repr

/-- One entry of the serialized scores sequence stored by saveGameResults. -/
structure Score where
  player : String
  score : Int
  deriving DecidableEq, Repr

/-- The slice of the caller-supplied game options that the store reads: the
`clonedGamedId` field used as the seed game identifier, plus the rest of the
options as an opaque serialized text. -/
structure GameOptionsM where
  clonedGamedId : Option String
  text : String
  deriving DecidableEq, Repr

/-- One row of the `game_results` relation, keyed by `game_id`. -/
structure ResultRow where
  game_id : String
  seed_game_id : Option String
  players : Nat
  generations : Nat
  game_options : String
  scores : List Score
  deriving DecidableEq, Repr

/-- The database state: the two relations created by the schema setup. -/
structure DB where
  games : List GameRow
  game_results : List ResultRow
  deriving DecidableEq, Repr

/-- The slice of the caller-side Game object that saveGame reads and
writes: `game.id`, `game.lastSaveId`, `game.toJSON()` and
`game.getPlayers().length`. -/
structure GameObj where
  id : String
  lastSaveId : Nat
  json : String
  playersLen : Nat
  deriving DecidableEq, Repr

/-! ### Model of JavaScript parseInt, used for the MAX_GAME_DAYS value -/

/-- Whitespace skipped by JavaScript parseInt (the ASCII white-space
characters). -/
def isJsSpace (c : Char) : Bool :=
  decide (c.toNat = 32 ∨ c.toNat = 9 ∨ c.toNat = 10 ∨ c.toNat = 13 ∨
    c.toNat = 11 ∨ c.toNat = 12)

/-- Decimal digit test on a character, by code point. -/
def isDecDigit (c : Char) : Bool :=
  decide (48 ≤ c.toNat ∧ c.toNat ≤ 57)

/-- Value of a decimal digit character, `none` on a non-digit. -/
def decDigitVal (c : Char) : Option Nat :=
  if 48 ≤ c.toNat ∧ c.toNat ≤ 57 then some (c.toNat - 48) else none

/-- Value of a hexadecimal digit character, `none` on a non-digit. -/
def hexDigitVal (c : Char) : Option Nat :=
  if 48 ≤ c.toNat ∧ c.toNat ≤ 57 then some (c.toNat - 48)
  else if 97 ≤ c.toNat ∧ c.toNat ≤ 102 then some (c.toNat - 87)
  else if 65 ≤ c.toNat ∧ c.toNat ≤ 70 then some (c.toNat - 55)
  else none

/-- Strip an optional leading sign, returning the sign as `1` or `-1`. -/
def splitSign (cs : List Char) : Int × List Char :=
  match cs with
  | [] => (1, [])
  | c :: t => if c = '-' then (-1, t) else if c = '+' then (1, t) else (1, cs)

/-- Accumulate the value of a digit sequence in the given base. -/
def digitsValue (val : Char → Option Nat) (base : Nat) (cs : List Char) : Nat :=
  cs.foldl (fun acc c => acc * base + (val c).getD 0) 0

/-- Parse the longest leading digit sequence; `none` when it is empty. -/
def parseDigits (val : Char → Option Nat) (base : Nat) (cs : List Char) : Option Nat :=
  if (cs.takeWhile (fun c => (val c).isSome)).isEmpty then none
  else some (digitsValue val base (cs.takeWhile (fun c => (val c).isSome)))

/-- Does the character list start with a hexadecimal `0x`/`0X` marker,
which parseInt honours when no radix is passed? -/
def hexIndicator : List Char → Bool
  | c0 :: c1 :: _ => c0 == '0' && (c1 == 'x' || c1 == 'X')
  | _ => false

/-- Model of JavaScript `parseInt(s)` with the radix argument absent:
skip leading whitespace, read an optional sign, then either a `0x`/`0X`
hexadecimal literal or the longest leading run of decimal digits; `none`
models the NaN result. -/
def jsParseInt (s : String) : Option Int :=
  let p := splitSign (s.data.dropWhile isJsSpace)
  let mag : Option Nat :=
    if hexIndicator p.2 then parseDigits hexDigitVal 16 (p.2.drop 2)
    else parseDigits decDigitVal 10 p.2
  mag.map (fun m => p.1 * (m : Int))

/-! ### purgeUnfinishedGames -/

/-- The day threshold computed by purgeUnfinishedGames from the optional
MAX_GAME_DAYS value: `parseInt(maxGameDays || '')` when that is an integer,
`10` otherwise. -/
def purgeDays (env : Option String) : Int :=
  match jsParseInt (env.getD "") with
  | some n => n
  | none => 10

/-- Timestamps are in seconds; one SQL day interval. -/
def secondsPerDay : Int := 86400

/-- Rows with `created_time` strictly below this cutoff are purged:
`now() - interval '1 day' * days`. -/
def purgeCutoff (env : Option String) (now : Int) : Int :=
  now - secondsPerDay * purgeDays env

/-- The DELETE issued by purgeUnfinishedGames, applied to the games
relation: every row strictly older than the cutoff is removed, whatever its
status. -/
def purgeRows (env : Option String) (now : Int) (rows : List GameRow) : List GameRow :=
  rows.filter (fun r => !decide (r.created_time < purgeCutoff env now))

/-- purgeUnfinishedGames: deletes all games rows older than the cutoff.
A backend failure is only logged (`console.warn`), so the caller never
receives an error from this operation. -/
def purgeUnfinishedGames (fail : Bool) (env : Option String) (now : Int) (db : DB) :
    DB × Option String :=
  if fail then (db, none)
  else (⟨purgeRows env now db.games, db.game_results⟩, none)

/-! ### Read operations -/

/-- getPlayerCount: `SELECT players FROM games WHERE save_id = 0 AND
game_id = $1 LIMIT 1`; the pair returned models the `(err, playerCount)`
arguments passed to the callback. -/
def getPlayerCount (fail : Bool) (db : DB) (g : String) : Option String × Option Nat :=
  if fail then (some "getPlayerCount query failed", none)
  else
    match (db.games.filter (fun r => r.save_id == 0 && r.game_id == g)).head? with
    | none => (none, none)
    | some r => (none, some r.players)

/-- Rows whose status column is `running`. -/
def runningRows (db : DB) : List GameRow :=
  db.games.filter (fun r => r.status == "running")

/-- The SQL `max(save_id) ... WHERE status='running' GROUP BY game_id`
value for one group (the group is nonempty whenever it is used). -/
def maxRunningSave (db : DB) (g : String) : Nat :=
  ((runningRows db).filter (fun r => r.game_id == g)).foldl
    (fun m r => max m r.save_id) 0

/-- The inner derived table of getGames: one `(game_id, max running
save_id)` pair per game that has at least one running row. -/
def activePairs (db : DB) : List (String × Nat) :=
  (((runningRows db).map (fun r => r.game_id)).dedup).map
    (fun g => (g, maxRunningSave db g))

/-- Insert one row into a list kept in descending order of the rank `f`. -/
def insertDescBy (f : GameRow → Int) (r : GameRow) : List GameRow → List GameRow
  | [] => [r]
  | x :: xs => if f x < f r then r :: x :: xs else x :: insertDescBy f r xs

/-- Sort rows in descending order of the rank `f` (models an `ORDER BY
... DESC` clause). -/
def sortDescBy (f : GameRow → Int) (l : List GameRow) : List GameRow :=
  l.foldr (insertDescBy f) []

/-- getGames: join the games relation with the per-game maximum running
save_id, order the joined rows by created_time descending, and project the
game identifiers. -/
def getGames (db : DB) : List String :=
  (sortDescBy (fun r => r.created_time)
    (db.games.filter
      (fun r => (activePairs db).any
        (fun p => p.1 == r.game_id && p.2 == r.save_id)))).map
    (fun r => r.game_id)

/-- getSaveIds: `SELECT distinct save_id FROM games WHERE game_id = $1`. -/
def getSaveIds (db : DB) (g : String) : List Nat :=
  ((db.games.filter (fun r => r.game_id == g)).map (fun r => r.save_id)).dedup

/-- Maximum of a list of numbers, `none` on the empty list (models the SQL
NULL returned by `MAX` over no rows). -/
def maxSave : List Nat → Option Nat
  | [] => none
  | s :: rest =>
    match maxSave rest with
    | none => some s
    | some m => some (max s m)

/-- getMaxSaveId: `SELECT MAX(save_id) as save_id FROM games WHERE
game_id = $1`. -/
def getMaxSaveId (db : DB) (g : String) : Option Nat :=
  maxSave ((db.games.filter (fun r => r.game_id == g)).map (fun r => r.save_id))

/-! ### Write operations -/

/-- saveGameResults: a single INSERT into game_results; the callback throws
on any error (duplicate primary key included), which the model surfaces as
`some` error, and a successful insert appends the row with the scores
sequence stored in input order. -/
def saveGameResults (fail : Bool) (gid : String) (players generations : Nat)
    (opts : GameOptionsM) (scores : List Score) (db : DB) : DB × Option String :=
  if fail then (db, some "saveGameResults query failed")
  else if db.game_results.any (fun r => r.game_id == gid) then
    (db, some "duplicate key value violates unique constraint")
  else
    (⟨db.games,
      db.game_results ++ [⟨gid, opts.clonedGamedId, players, generations, opts.text, scores⟩]⟩,
     none)

/-- Primary-key test for a games row against the key `(g, v)`. -/
def rowKey (g : String) (v : Nat) (r : GameRow) : Bool :=
  r.game_id == g && r.save_id == v

/-- The conflict action `DO UPDATE SET game = $3` applied to one row: only
the document column changes, every other column stays fixed. -/
def updRow (g : String) (v : Nat) (doc : String) (r : GameRow) : GameRow :=
  if rowKey g v r then
    ⟨r.game_id, r.players, r.save_id, doc, r.status, r.created_time⟩
  else r

/-- The INSERT ... ON CONFLICT (game_id, save_id) DO UPDATE SET game = $3
of saveGame: if the key exists the document column alone is overwritten,
otherwise a fresh row is inserted with the default status `running` and the
current time. -/
def upsertGame (now : Int) (g : String) (v : Nat) (doc : String) (n : Nat)
    (rows : List GameRow) : List GameRow :=
  if rows.any (rowKey g v) then rows.map (updRow g v doc)
  else rows ++ [⟨g, n, v, doc, "running", now⟩]

/-- saveGame: upsert at `(game.id, game.lastSaveId)`; on success the
caller-visible `lastSaveId` is incremented; on a backend failure the error
is caught and logged (`console.error`), so the caller sees no error and the
counter is left unchanged. -/
def saveGame (fail : Bool) (now : Int) (game : GameObj) (db : DB) :
    DB × GameObj × Option String :=
  if fail then (db, game, none)
  else
    (⟨upsertGame now game.id game.lastSaveId game.json game.playersLen db.games,
      db.game_results⟩,
     ⟨game.id, game.lastSaveId + 1, game.json, game.playersLen⟩, none)

/-- deleteGameNbrSaves: deletes the `rollbackCount` rows of the game with
the highest save_id values (the DELETE ... WHERE ctid IN (... ORDER BY
save_id DESC LIMIT $2) statement; row identity is by value, which matches
physical identity under the primary-key invariant); a no-op when
`rollbackCount <= 0`; a backend failure is only logged (`console.warn`). -/
def deleteGameNbrSaves (fail : Bool) (g : String) (rollbackCount : Int) (db : DB) :
    DB × Option String :=
  if 0 < rollbackCount then
    if fail then (db, none)
    else
      (⟨db.games.filter
          (fun r =>
            !(((sortDescBy (fun x => (x.save_id : Int))
                (db.games.filter (fun x => x.game_id == g))).take
                rollbackCount.toNat).contains r)),
        db.game_results⟩, none)
  else (db, none)

/-! ### cleanSaves -/

/-- Which of the four backend queries of cleanSaves fail. -/
structure FailFlags where
  maxFails : Bool
  trimFails : Bool
  statusFails : Bool
  purgeFails : Bool
  deriving DecidableEq, Repr

/-- The no-failure schedule. -/
def noFail : FailFlags := ⟨false, false, false, false⟩

/-- The four backend queries cleanSaves can issue, in order: the MAX
lookup, the trimming DELETE, the status UPDATE, and the purge DELETE. -/
inductive Step where
  | maxQ
  | trimQ
  | statusQ
  | purgeQ
  deriving DecidableEq, Repr

/-- Outcome of cleanSaves: the resulting database, the queries that were
issued (in order), and the error surfaced, if any. -/
structure CleanOutcome where
  db : DB
  trace : List Step
  error : Option String
  deriving DecidableEq, Repr

/-- The trimming DELETE of cleanSaves: `DELETE FROM games WHERE game_id =
$1 AND save_id < $2 AND save_id > 0`. -/
def trimRows (g : String) (h : Nat) (rows : List GameRow) : List GameRow :=
  rows.filter (fun r =>
    !(r.game_id == g && decide (r.save_id < h) && decide (0 < r.save_id)))

/-- Effect of the status UPDATE on one row. -/
def finishRow (g : String) (r : GameRow) : GameRow :=
  if r.game_id == g then
    ⟨r.game_id, r.players, r.save_id, r.game, "finished", r.created_time⟩
  else r

/-- The status UPDATE of cleanSaves: `UPDATE games SET status = 'finished'
WHERE game_id = $1`. -/
def markFinished (g : String) (rows : List GameRow) : List GameRow :=
  rows.map (finishRow g)

/-- cleanSaves: look up the highest save_id (failing fast when the game has
no rows), trim the strictly intermediate saves, mark the game's rows
finished, then trigger the purge sweep; each step runs only in the callback
of the previous one, and `throwIf` aborts the chain on the first error.
The purge step swallows its own backend error. -/
def cleanSaves (ff : FailFlags) (env : Option String) (now : Int) (g : String)
    (db : DB) : CleanOutcome :=
  if ff.maxFails then ⟨db, [Step.maxQ], some "cleanSaves0"⟩
  else
    match getMaxSaveId db g with
    | none => ⟨db, [Step.maxQ], some ("saveId is undefined for " ++ g)⟩
    | some h =>
      if ff.trimFails then ⟨db, [Step.maxQ, Step.trimQ], some "cleanSaves1"⟩
      else
        let db1 : DB := ⟨trimRows g h db.games, db.game_results⟩
        if ff.statusFails then
          ⟨db1, [Step.maxQ, Step.trimQ, Step.statusQ], some "cleanSaves2"⟩
        else
          let db2 : DB := ⟨markFinished g db1.games, db1.game_results⟩
          let db3 : DB :=
            if ff.purgeFails then db2 else ⟨purgeRows env now db2.games, db2.game_results⟩
          ⟨db3, [Step.maxQ, Step.trimQ, Step.statusQ, Step.purgeQ], none⟩

/-! ### Spec-side definitions used to compare the stated configuration
contract with the code -/

/-- Follows the spec wording: a configured retention value is a valid
integer when the whole string is an optional sign followed by one or more
decimal digits. -/
def isValidIntegerString (s : String) : Bool :=
  !(splitSign s.data).2.isEmpty && (splitSign s.data).2.all isDecDigit

/-- Follows the spec wording: the integer a valid integer string denotes. -/
def integerStringValue (s : String) : Int :=
  (splitSign s.data).1 * (digitsValue decDigitVal 10 (splitSign s.data).2 : Int)

/-- The primary-key invariant of the games relation: no two rows share the
pair (game_id, save_id). -/
def pkUnique (rows : List GameRow) : Prop :=
  rows.Pairwise (fun a b => ¬(a.game_id = b.game_id ∧ a.save_id = b.save_id))

/-! ### Helper lemmas -/

theorem mem_insertDescBy {f : GameRow → Int} {r a : GameRow} {l : List GameRow} :
    a ∈ insertDescBy f r l ↔ a = r ∨ a ∈ l := by
  induction l with
  | nil => simp [insertDescBy]
  | cons x xs ih =>
    unfold insertDescBy
    by_cases hx : f x < f r
    · simp [hx]
    · simp only [if_neg hx, List.mem_cons, ih]
      tauto

theorem mem_sortDescBy {f : GameRow → Int} {a : GameRow} {l : List GameRow} :
    a ∈ sortDescBy f l ↔ a ∈ l := by
  induction l with
  | nil => simp [sortDescBy]
  | cons x xs ih =>
    show a ∈ insertDescBy f x (sortDescBy f xs) ↔ _
    rw [mem_insertDescBy, ih, List.mem_cons]

theorem maxSave_eq_none {l : List Nat} : maxSave l = none ↔ l = [] := by
  cases l with
  | nil => simp [maxSave]
  | cons s rest =>
    unfold maxSave
    cases maxSave rest <;> simp

theorem maxSave_le {l : List Nat} {m : Nat} (h : maxSave l = some m) :
    ∀ x ∈ l, x ≤ m := by
  induction l generalizing m with
  | nil => intro x hx; simp at hx
  | cons s rest ih =>
    intro x hx
    unfold maxSave at h
    cases hrest : maxSave rest with
    | none =>
      rw [hrest] at h
      have hre : rest = [] := maxSave_eq_none.mp hrest
      subst hre
      simp at h hx
      omega
    | some m2 =>
      rw [hrest] at h
      have h2 : max s m2 = m := by simpa using h
      cases hx with
      | head => rw [← h2]; exact Nat.le_max_left s m2
      | tail _ hmem =>
        rw [← h2]
        exact le_trans (ih hrest x hmem) (Nat.le_max_right s m2)

theorem maxSave_mem {l : List Nat} {m : Nat} (h : maxSave l = some m) : m ∈ l := by
  induction l generalizing m with
  | nil => simp [maxSave] at h
  | cons s rest ih =>
    unfold maxSave at h
    cases hrest : maxSave rest with
    | none =>
      rw [hrest] at h
      simp at h
      subst h
      exact List.mem_cons_self s rest
    | some m2 =>
      rw [hrest] at h
      have h2 : max s m2 = m := by simpa using h
      rcases max_choice s m2 with hc | hc
      · rw [← h2, hc]; exact List.mem_cons_self s rest
      · rw [← h2, hc]; exact List.mem_cons_of_mem s (ih hrest)

theorem getMaxSaveId_le {db : DB} {g : String} {h : Nat}
    (hm : getMaxSaveId db g = some h) :
    ∀ r ∈ db.games, r.game_id = g → r.save_id ≤ h := by
  intro r hr hg
  refine maxSave_le hm r.save_id ?_
  exact List.mem_map_of_mem _ (List.mem_filter.mpr ⟨hr, by simp [hg]⟩)

theorem getMaxSaveId_attained {db : DB} {g : String} {h : Nat}
    (hm : getMaxSaveId db g = some h) :
    ∃ r ∈ db.games, r.game_id = g ∧ r.save_id = h := by
  have hmem := maxSave_mem hm
  rw [List.mem_map] at hmem
  obtain ⟨r, hr, hs⟩ := hmem
  rw [List.mem_filter] at hr
  refine ⟨r, hr.1, ?_, hs⟩
  simpa using hr.2

theorem decDigitVal_isSome (c : Char) : (decDigitVal c).isSome = isDecDigit c := by
  unfold decDigitVal isDecDigit
  split <;> simp_all

theorem isJsSpace_eq_false_of_digit {c : Char} (h : isDecDigit c = true) :
    isJsSpace c = false := by
  unfold isDecDigit at h
  unfold isJsSpace
  simp only [decide_eq_true_eq] at h
  simp only [decide_eq_false_iff_not]
  omega

theorem takeWhile_eq_self_of_all {p : Char → Bool} {l : List Char}
    (h : ∀ c ∈ l, p c = true) : l.takeWhile p = l := by
  induction l with
  | nil => rfl
  | cons c t ih =>
    have hc := h c (List.mem_cons_self c t)
    simp [List.takeWhile_cons, hc, ih (fun x hx => h x (List.mem_cons_of_mem c hx))]

theorem hexIndicator_eq_false_of_digits {l : List Char}
    (h : ∀ c ∈ l, isDecDigit c = true) : hexIndicator l = false := by
  match l with
  | [] => rfl
  | [c] => rfl
  | c0 :: c1 :: rest =>
    have h1 := h c1 (List.mem_cons_of_mem c0 (List.mem_cons_self c1 rest))
    unfold isDecDigit at h1
    simp only [decide_eq_true_eq] at h1
    have hx : c1 ≠ 'x' := by intro he; rw [he] at h1; exact absurd h1 (by decide)
    have hX : c1 ≠ 'X' := by intro he; rw [he] at h1; exact absurd h1 (by decide)
    unfold hexIndicator
    simp [hx, hX]

theorem parseDigits_all {val : Char → Option Nat} {b : Nat} {l : List Char}
    (hne : l ≠ []) (hall : ∀ c ∈ l, (val c).isSome = true) :
    parseDigits val b l = some (digitsValue val b l) := by
  unfold parseDigits
  rw [takeWhile_eq_self_of_all hall]
  cases l with
  | nil => exact absurd rfl hne
  | cons c t => rfl

theorem jsParseInt_valid {s : String} (h : isValidIntegerString s = true) :
    jsParseInt s = some (integerStringValue s) := by
  unfold isValidIntegerString at h
  rw [Bool.and_eq_true] at h
  obtain ⟨hne, hall⟩ := h
  rw [Bool.not_eq_true', List.isEmpty_eq_false] at hne
  rw [List.all_eq_true] at hall
  have hdrop : s.data.dropWhile isJsSpace = s.data := by
    cases hd : s.data with
    | nil => rfl
    | cons c t =>
      rw [hd] at hall
      have hcspace : isJsSpace c = false := by
        by_cases hc : c = '-'
        · subst hc; decide
        · by_cases hc2 : c = '+'
          · subst hc2; decide
          · have hsplit : (splitSign (c :: t)).2 = c :: t := by
              simp [splitSign, hc, hc2]
            exact isJsSpace_eq_false_of_digit
              (hall c (by rw [hsplit]; exact List.mem_cons_self c t))
      rw [List.dropWhile_cons]
      simp [hcspace]
  have hhex : hexIndicator (splitSign s.data).2 = false :=
    hexIndicator_eq_false_of_digits (fun c hc => hall c hc)
  have hparse : parseDigits decDigitVal 10 (splitSign s.data).2 =
      some (digitsValue decDigitVal 10 (splitSign s.data).2) := by
    refine parseDigits_all hne (fun c hc => ?_)
    rw [decDigitVal_isSome]
    exact hall c hc
  unfold jsParseInt integerStringValue
  rw [hdrop]
  simp [hhex, hparse]

/-! ### Claim theorems -/

/-- C8: purgeUnfinishedGames(d) deletes exactly the games rows, of any
status, whose creation timestamp is strictly older than now minus d days
(d being the computed day threshold), keeps every newer row, and leaves the
results relation untouched. -/
theorem purge_deletes_exactly_old (env : Option String) (now : Int) (db : DB)
    (r : GameRow) :
    (r ∈ (purgeUnfinishedGames false env now db).1.games ↔
      r ∈ db.games ∧ ¬(r.created_time < now - secondsPerDay * purgeDays env)) ∧
    (purgeUnfinishedGames false env now db).1.game_results = db.game_results := by
  constructor
  · simp [purgeUnfinishedGames, purgeRows, List.mem_filter, purgeCutoff]
  · rfl

/-- C6: the caller-visible version counter game.lastSaveId is incremented
by exactly one when the saveGame upsert commits, and left unchanged when
the backend query fails. -/
theorem saveGame_lastSaveId_spec (now : Int) (game : GameObj) (db : DB) :
    ((saveGame false now game db).2.1).lastSaveId = game.lastSaveId + 1 ∧
    (saveGame true now game db).2.1 = game := by
  exact ⟨rfl, rfl⟩

/-- C4 counterexample: on a failing backend query, saveGame,
deleteGameNbrSaves and purgeUnfinishedGames all surface no error to the
caller, contradicting the claim that the failure is always propagated. -/
theorem write_errors_counterexample :
    (saveGame true 0 ⟨"g1", 0, "doc", 2⟩ ⟨[], []⟩).2.2 = none ∧
    (deleteGameNbrSaves true "g1" 1 ⟨[], []⟩).2 = none ∧
    (purgeUnfinishedGames true none 0 ⟨[], []⟩).2 = none := by
  exact ⟨rfl, rfl, rfl⟩

/-- C4 amended: when the backend query fails, saveGame, deleteGameNbrSaves
and purgeUnfinishedGames log the error and swallow it: each operation
completes with no caller-visible error and leaves the database (and for
saveGame the game object) unchanged. -/
theorem write_errors_swallowed (now : Int) (env : Option String) (game : GameObj)
    (g : String) (k : Int) (db : DB) :
    saveGame true now game db = (db, game, none) ∧
    deleteGameNbrSaves true g k db = (db, none) ∧
    purgeUnfinishedGames true env now db = (db, none) := by
  refine ⟨rfl, ?_, rfl⟩
  unfold deleteGameNbrSaves
  split <;> rfl

/-- C10: for a game identifier with no version-0 row, getPlayerCount
completes without an error and reports the player count as undefined: the
callback receives (undefined, undefined). -/
theorem getPlayerCount_missing_game (fail : Bool) (db : DB) (g : String)
    (hf : fail = false)
    (hno : ∀ r ∈ db.games, ¬(r.game_id = g ∧ r.save_id = 0)) :
    getPlayerCount fail db g = (none, none) := by
  subst hf
  unfold getPlayerCount
  have hnil : db.games.filter (fun r => r.save_id == 0 && r.game_id == g) = [] := by
    rw [List.filter_eq_nil_iff]
    intro r hr
    have := hno r hr
    simp only [Bool.and_eq_true, beq_iff_eq]
    tauto
  simp [hnil]

/-- C7 counterexample: the configured value "5x" is not a valid integer,
yet purgeUnfinishedGames computes a threshold of 5 days (the parsed integer
leading run of parseInt), not the claimed default of 10. -/
theorem purge_days_counterexample :
    isValidIntegerString "5x" = false ∧ purgeDays (some "5x") = 5 ∧ (5 : Int) ≠ 10 := by
  exact ⟨by decide, by decide, by decide⟩

/-- C7 amended: the threshold is 10 days when the value is absent or when
parseInt finds no integer in it, and a value that is a fully valid integer
string is used as the number of days; but a value with a mere leading
integer run (such as "5x") uses that parsed integer, not the default. -/
theorem purge_days_spec (s : String) :
    purgeDays none = 10 ∧
    (jsParseInt s = none → purgeDays (some s) = 10) ∧
    (isValidIntegerString s = true → purgeDays (some s) = integerStringValue s) := by
  refine ⟨by decide, ?_, ?_⟩
  · intro hn
    unfold purgeDays
    simp [Option.getD, hn]
  · intro hv
    unfold purgeDays
    simp [Option.getD, jsParseInt_valid hv]

/-- C7 witness: "abc" parses to NaN and falls back to 10 days, while "-7"
is a valid integer string and is used as the threshold. -/
theorem purge_days_spec_witness :
    (jsParseInt "abc" = none ∧ purgeDays (some "abc") = 10) ∧
    (isValidIntegerString "-7" = true ∧ purgeDays (some "-7") = integerStringValue "-7") := by
  exact ⟨⟨by decide, (purge_days_spec "abc").2.1 (by decide)⟩,
         ⟨by decide, (purge_days_spec "-7").2.2 (by decide)⟩⟩

/-- C5: a recordResult call for a game identifier that already has a
results row fails for every backend outcome, the failure is surfaced to the
caller, and the results relation still holds exactly the original row with
its stored scores sequence. -/
theorem saveGameResults_duplicate_fails (fail : Bool) (gid : String)
    (players generations : Nat) (opts : GameOptionsM) (scores : List Score)
    (db : DB) (row : ResultRow)
    (hone : db.game_results.filter (fun r => r.game_id == gid) = [row]) :
    ((saveGameResults fail gid players generations opts scores db).2).isSome = true ∧
    ((saveGameResults fail gid players generations opts scores db).1).game_results.filter
      (fun r => r.game_id == gid) = [row] := by
  have hmem : row ∈ db.game_results.filter (fun r => r.game_id == gid) := by
    rw [hone]; exact List.mem_cons_self row []
  rw [List.mem_filter] at hmem
  have hany : db.game_results.any (fun r => r.game_id == gid) = true :=
    List.any_eq_true.mpr ⟨row, hmem.1, hmem.2⟩
  unfold saveGameResults
  cases fail
  · simp [hany, hone]
  · simp [hone]

/-- C5 witness: recording a result for g1 twice fails on the second call
and keeps the single original row with its scores in input order. -/
theorem saveGameResults_duplicate_fails_witness :
    (([⟨"g1", none, 2, 14, "o", [⟨"p1", 50⟩, ⟨"p2", 42⟩]⟩] : List ResultRow).filter
        (fun r => r.game_id == "g1") =
      [⟨"g1", none, 2, 14, "o", [⟨"p1", 50⟩, ⟨"p2", 42⟩]⟩]) ∧
    ((saveGameResults false "g1" 2 14 ⟨none, "o"⟩ [⟨"p1", 50⟩, ⟨"p2", 42⟩]
        ⟨[], [⟨"g1", none, 2, 14, "o", [⟨"p1", 50⟩, ⟨"p2", 42⟩]⟩]⟩).2).isSome = true ∧
    ((saveGameResults false "g1" 2 14 ⟨none, "o"⟩ [⟨"p1", 50⟩, ⟨"p2", 42⟩]
        ⟨[], [⟨"g1", none, 2, 14, "o", [⟨"p1", 50⟩, ⟨"p2", 42⟩]⟩]⟩).1).game_results.filter
      (fun r => r.game_id == "g1") =
      [⟨"g1", none, 2, 14, "o", [⟨"p1", 50⟩, ⟨"p2", 42⟩]⟩] := by
  refine ⟨by decide, ?_, ?_⟩
  · exact (saveGameResults_duplicate_fails false "g1" 2 14 ⟨none, "o"⟩
      [⟨"p1", 50⟩, ⟨"p2", 42⟩] ⟨[], [⟨"g1", none, 2, 14, "o", [⟨"p1", 50⟩, ⟨"p2", 42⟩]⟩]⟩
      ⟨"g1", none, 2, 14, "o", [⟨"p1", 50⟩, ⟨"p2", 42⟩]⟩ (by decide)).1
  · exact (saveGameResults_duplicate_fails false "g1" 2 14 ⟨none, "o"⟩
      [⟨"p1", 50⟩, ⟨"p2", 42⟩] ⟨[], [⟨"g1", none, 2, 14, "o", [⟨"p1", 50⟩, ⟨"p2", 42⟩]⟩]⟩
      ⟨"g1", none, 2, 14, "o", [⟨"p1", 50⟩, ⟨"p2", 42⟩]⟩ (by decide)).2

/-- C3: in cleanSaves the status UPDATE is issued only after the trimming
DELETE succeeded and the purge only after the status UPDATE succeeded; when
the trim fails the database is unchanged, the status and purge queries are
not issued, and the error is surfaced. -/
theorem cleanSaves_step_ordering (ff : FailFlags) (env : Option String) (now : Int)
    (g : String) (db : DB) (h : Nat)
    (hmf : ff.maxFails = false) (hmax : getMaxSaveId db g = some h) :
    (ff.trimFails = true →
      (cleanSaves ff env now g db).db = db ∧
      Step.statusQ ∉ (cleanSaves ff env now g db).trace ∧
      Step.purgeQ ∉ (cleanSaves ff env now g db).trace ∧
      ((cleanSaves ff env now g db).error).isSome = true) ∧
    (Step.statusQ ∈ (cleanSaves ff env now g db).trace → ff.trimFails = false) ∧
    (Step.purgeQ ∈ (cleanSaves ff env now g db).trace →
      ff.trimFails = false ∧ ff.statusFails = false) := by
  obtain ⟨mf, tf, sf, pf⟩ := ff
  simp only at hmf
  subst hmf
  unfold cleanSaves
  simp only [hmax]
  cases tf
  · cases sf <;> simp
  · simp

/-- C3 witness: with the trimming DELETE failing on a one-row database, the
state is unchanged, no status or purge query is issued, and an error is
surfaced. -/
theorem cleanSaves_step_ordering_witness :
    ((⟨false, true, false, false⟩ : FailFlags).maxFails = false ∧
      getMaxSaveId ⟨[⟨"g1", 2, 0, "d0", "running", 0⟩], []⟩ "g1" = some 0 ∧
      (⟨false, true, false, false⟩ : FailFlags).trimFails = true) ∧
    ((cleanSaves ⟨false, true, false, false⟩ none 0 "g1"
        ⟨[⟨"g1", 2, 0, "d0", "running", 0⟩], []⟩).db =
      ⟨[⟨"g1", 2, 0, "d0", "running", 0⟩], []⟩ ∧
     Step.statusQ ∉ (cleanSaves ⟨false, true, false, false⟩ none 0 "g1"
        ⟨[⟨"g1", 2, 0, "d0", "running", 0⟩], []⟩).trace ∧
     Step.purgeQ ∉ (cleanSaves ⟨false, true, false, false⟩ none 0 "g1"
        ⟨[⟨"g1", 2, 0, "d0", "running", 0⟩], []⟩).trace ∧
     ((cleanSaves ⟨false, true, false, false⟩ none 0 "g1"
        ⟨[⟨"g1", 2, 0, "d0", "running", 0⟩], []⟩).error).isSome = true) := by
  refine ⟨⟨rfl, by decide, rfl⟩, ?_⟩
  exact (cleanSaves_step_ordering ⟨false, true, false, false⟩ none 0 "g1"
    ⟨[⟨"g1", 2, 0, "d0", "running", 0⟩], []⟩ 0 rfl (by decide)).1 rfl

/-- C10 witness: a concrete database holding only another game's origin
row makes getPlayerCount answer (undefined, undefined) for g1. -/
theorem getPlayerCount_missing_game_witness :
    (false = false ∧
      ∀ r ∈ ([⟨"g2", 3, 0, "d", "running", 0⟩] : List GameRow),
        ¬(r.game_id = "g1" ∧ r.save_id = 0)) ∧
    getPlayerCount false ⟨[⟨"g2", 3, 0, "d", "running", 0⟩], []⟩ "g1" = (none, none) := by
  refine ⟨⟨rfl, by decide⟩, ?_⟩
  exact getPlayerCount_missing_game false ⟨[⟨"g2", 3, 0, "d", "running", 0⟩], []⟩ "g1"
    rfl (by decide)

/-- C1 counterexample: in a database where game g1's highest-version row
(save_id 1) has status finished but a stale running row remains at
save_id 0, getGames still returns g1. -/
theorem getGames_counterexample :
    "g1" ∈ getGames ⟨[⟨"g1", 2, 0, "d0", "running", 5⟩,
                      ⟨"g1", 2, 1, "d1", "finished", 6⟩], []⟩ ∧
    getMaxSaveId ⟨[⟨"g1", 2, 0, "d0", "running", 5⟩,
                   ⟨"g1", 2, 1, "d1", "finished", 6⟩], []⟩ "g1" = some 1 ∧
    (∀ r ∈ ([⟨"g1", 2, 0, "d0", "running", 5⟩,
             ⟨"g1", 2, 1, "d1", "finished", 6⟩] : List GameRow),
      r.game_id = "g1" → r.save_id = 1 → r.status = "finished") := by
  exact ⟨by decide, by decide, by decide⟩

/-- C1 amended: every identifier returned by getGames has at least one row
with status running (so a game all of whose rows are finished never
appears); but a finished game that still has a stale running row at an
older version is selected through that stale row, so its appearance is not
excluded. -/
theorem getGames_running_row (db : DB) (g : String) (hg : g ∈ getGames db) :
    ∃ r ∈ db.games, r.game_id = g ∧ r.status = "running" := by
  unfold getGames at hg
  rw [List.mem_map] at hg
  obtain ⟨r, hr, hgid⟩ := hg
  rw [mem_sortDescBy, List.mem_filter] at hr
  obtain ⟨hrdb, hpair⟩ := hr
  rw [List.any_eq_true] at hpair
  obtain ⟨p, hp, hmatch⟩ := hpair
  rw [Bool.and_eq_true] at hmatch
  have hp1 : p.1 = r.game_id := by simpa using hmatch.1
  unfold activePairs at hp
  rw [List.mem_map] at hp
  obtain ⟨gid, hgid2, hpe⟩ := hp
  rw [List.mem_dedup, List.mem_map] at hgid2
  obtain ⟨rr, hrr, hrrid⟩ := hgid2
  unfold runningRows at hrr
  rw [List.mem_filter] at hrr
  refine ⟨rr, hrr.1, ?_, by simpa using hrr.2⟩
  have hgg : gid = r.game_id := by rw [← hp1, ← hpe]
  rw [hrrid, hgg, hgid]

/-- C1 witness: a database with a single running row for g1 puts g1 in the
getGames result, and the amended theorem recovers a running row for it. -/
theorem getGames_running_row_witness :
    ("g1" ∈ getGames ⟨[⟨"g1", 2, 0, "d0", "running", 5⟩], []⟩) ∧
    ∃ r ∈ ([⟨"g1", 2, 0, "d0", "running", 5⟩] : List GameRow),
      r.game_id = "g1" ∧ r.status = "running" := by
  refine ⟨by decide, ?_⟩
  exact getGames_running_row ⟨[⟨"g1", 2, 0, "d0", "running", 5⟩], []⟩ "g1" (by decide)

/-! ### Upsert lemmas for the idempotence claim -/

theorem rowKey_updRow (g : String) (v : Nat) (doc : String) (r : GameRow) :
    rowKey g v (updRow g v doc r) = rowKey g v r := by
  by_cases hk : rowKey g v r = true
  · obtain ⟨h1, h2⟩ : r.game_id = g ∧ r.save_id = v := by
      simpa [rowKey] using hk
    simp [updRow, rowKey, h1, h2]
  · simp [updRow, hk]

theorem countP_map_updRow (g : String) (v : Nat) (doc : String)
    (rows : List GameRow) :
    (rows.map (updRow g v doc)).countP (rowKey g v) = rows.countP (rowKey g v) := by
  induction rows with
  | nil => rfl
  | cons r t ih => simp [List.countP_cons, rowKey_updRow, ih]

theorem countP_upsert_pos (now : Int) (g : String) (v : Nat) (doc : String)
    (n : Nat) (rows : List GameRow) (hany : rows.any (rowKey g v) = true) :
    (upsertGame now g v doc n rows).countP (rowKey g v) =
      rows.countP (rowKey g v) := by
  unfold upsertGame
  rw [if_pos hany]
  exact countP_map_updRow g v doc rows

theorem countP_upsert_neg (now : Int) (g : String) (v : Nat) (doc : String)
    (n : Nat) (rows : List GameRow) (hany : rows.any (rowKey g v) = false) :
    (upsertGame now g v doc n rows).countP (rowKey g v) = 1 := by
  unfold upsertGame
  rw [hany]
  simp only [Bool.false_eq_true, if_false]
  rw [List.countP_append]
  have h0 : rows.countP (rowKey g v) = 0 := by
    rw [List.countP_eq_zero]
    intro a ha
    rw [List.any_eq_false] at hany
    simp [hany a ha]
  have h1 : (rowKey g v ⟨g, n, v, doc, "running", now⟩) = true := by
    simp [rowKey]
  simp [h0, h1]

theorem upsert_mem_game (now : Int) (g : String) (v : Nat) (doc : String)
    (n : Nat) (rows : List GameRow) (r : GameRow)
    (hmem : r ∈ upsertGame now g v doc n rows) (hk : rowKey g v r = true) :
    r.game = doc := by
  unfold upsertGame at hmem
  by_cases hany : rows.any (rowKey g v) = true
  · rw [if_pos hany] at hmem
    rw [List.mem_map] at hmem
    obtain ⟨r0, _, heq⟩ := hmem
    subst heq
    rw [rowKey_updRow] at hk
    simp [updRow, hk]
  · rw [Bool.not_eq_true] at hany
    rw [hany] at hmem
    simp only [Bool.false_eq_true, if_false, List.mem_append] at hmem
    cases hmem with
    | inl hin =>
      rw [List.any_eq_false] at hany
      exact absurd hk (by simp [hany r hin])
    | inr hnew =>
      have : r = ⟨g, n, v, doc, "running", now⟩ := by simpa using hnew
      rw [this]

theorem countP_le_one_of_pkUnique {rows : List GameRow} {g : String} {v : Nat}
    (hpk : pkUnique rows) : rows.countP (rowKey g v) ≤ 1 := by
  induction rows with
  | nil => simp
  | cons r t ih =>
    rw [pkUnique, List.pairwise_cons] at hpk
    rw [List.countP_cons]
    by_cases hk : rowKey g v r = true
    · have ht : t.countP (rowKey g v) = 0 := by
        rw [List.countP_eq_zero]
        intro b hb hkb
        unfold rowKey at hk hkb
        simp only [Bool.and_eq_true, beq_iff_eq] at hk hkb
        exact hpk.1 b hb ⟨by rw [hk.1, hkb.1], by rw [hk.2, hkb.2]⟩
      simp [ht, hk]
    · simp only [hk, if_false]
      simpa using ih hpk.2

/-- C9: two saveGame calls with identical arguments (same identifier,
version, document and player count) leave exactly one games row for the
key, and that row's stored document is the saved one: the second call
overwrites in place rather than inserting a duplicate or failing. -/
theorem saveGame_upsert_idempotent (now now2 : Int) (game : GameObj) (db : DB)
    (hpk : pkUnique db.games) :
    ((saveGame false now2 game (saveGame false now game db).1).1).games.countP
        (rowKey game.id game.lastSaveId) = 1 ∧
    (∀ r ∈ ((saveGame false now2 game (saveGame false now game db).1).1).games,
      rowKey game.id game.lastSaveId r = true → r.game = game.json) := by
  have hfst : (saveGame false now game db).1.games =
      upsertGame now game.id game.lastSaveId game.json game.playersLen db.games := rfl
  have hsnd : ((saveGame false now2 game (saveGame false now game db).1).1).games =
      upsertGame now2 game.id game.lastSaveId game.json game.playersLen
        (upsertGame now game.id game.lastSaveId game.json game.playersLen db.games) := by
    rw [← hfst]; rfl
  have hcount1 :
      (upsertGame now game.id game.lastSaveId game.json game.playersLen
        db.games).countP (rowKey game.id game.lastSaveId) = 1 := by
    by_cases hany : db.games.any (rowKey game.id game.lastSaveId) = true
    · rw [countP_upsert_pos _ _ _ _ _ _ hany]
      have hge : 0 < db.games.countP (rowKey game.id game.lastSaveId) := by
        rw [List.countP_pos_iff]
        rw [List.any_eq_true] at hany
        exact hany
      have hle := countP_le_one_of_pkUnique (g := game.id) (v := game.lastSaveId) hpk
      omega
    · exact countP_upsert_neg _ _ _ _ _ _ (by simpa using hany)
  constructor
  · rw [hsnd]
    have hany2 : (upsertGame now game.id game.lastSaveId game.json game.playersLen
        db.games).any (rowKey game.id game.lastSaveId) = true := by
      rw [List.any_eq_true]
      rw [← List.countP_pos_iff]
      omega
    rw [countP_upsert_pos _ _ _ _ _ _ hany2]
    exact hcount1
  · intro r hr hk
    rw [hsnd] at hr
    exact upsert_mem_game _ _ _ _ _ _ r hr hk

/-- C9 witness: starting from the empty database, saving the same snapshot
twice leaves exactly one row with the saved document. -/
theorem saveGame_upsert_idempotent_witness :
    pkUnique (([] : List GameRow)) ∧
    ((saveGame false 1 ⟨"g1", 0, "doc", 2⟩
        (saveGame false 0 ⟨"g1", 0, "doc", 2⟩ ⟨[], []⟩).1).1).games.countP
      (rowKey "g1" 0) = 1 ∧
    (∀ r ∈ ((saveGame false 1 ⟨"g1", 0, "doc", 2⟩
        (saveGame false 0 ⟨"g1", 0, "doc", 2⟩ ⟨[], []⟩).1).1).games,
      rowKey "g1" 0 r = true → r.game = "doc") := by
  refine ⟨List.Pairwise.nil, ?_, ?_⟩
  · exact (saveGame_upsert_idempotent 0 1 ⟨"g1", 0, "doc", 2⟩ ⟨[], []⟩
      List.Pairwise.nil).1
  · exact (saveGame_upsert_idempotent 0 1 ⟨"g1", 0, "doc", 2⟩ ⟨[], []⟩
      List.Pairwise.nil).2

/-! ### Lemmas for the cleanup claim -/

theorem mem_trimRows {g : String} {h : Nat} {rows : List GameRow} {r : GameRow} :
    r ∈ trimRows g h rows ↔
      r ∈ rows ∧ ¬(r.game_id = g ∧ r.save_id < h ∧ 0 < r.save_id) := by
  unfold trimRows
  rw [List.mem_filter]
  apply and_congr_right
  intro _
  simp only [Bool.not_eq_true', Bool.and_eq_false_iff, beq_eq_false_iff_ne,
    decide_eq_false_iff_not, ne_eq]
  tauto

theorem mem_purgeRows {env : Option String} {now : Int} {rows : List GameRow}
    {r : GameRow} :
    r ∈ purgeRows env now rows ↔
      r ∈ rows ∧ ¬(r.created_time < purgeCutoff env now) := by
  unfold purgeRows
  rw [List.mem_filter]
  simp

theorem finishRow_game_id (g : String) (r : GameRow) :
    (finishRow g r).game_id = r.game_id := by
  unfold finishRow
  split <;> rfl

theorem finishRow_save_id (g : String) (r : GameRow) :
    (finishRow g r).save_id = r.save_id := by
  unfold finishRow
  split <;> rfl

theorem finishRow_created_time (g : String) (r : GameRow) :
    (finishRow g r).created_time = r.created_time := by
  unfold finishRow
  split <;> rfl

theorem finishRow_status {g : String} {r : GameRow} (hid : r.game_id = g) :
    (finishRow g r).status = "finished" := by
  unfold finishRow
  rw [if_pos (by simp [hid])]

/-- C2 counterexample: a game whose rows are versions 1 and 2 only (no
origin row) has at least one snapshot row, yet after a fully successful
cleanSaves the surviving version set is {2} and does not contain 0, while
the claim demands exactly {0, 2}. -/
theorem cleanSaves_counterexample :
    (⟨[⟨"g1", 2, 1, "d1", "running", 0⟩, ⟨"g1", 2, 2, "d2", "running", 0⟩],
        []⟩ : DB).games ≠ [] ∧
    (cleanSaves noFail none 0 "g1"
      ⟨[⟨"g1", 2, 1, "d1", "running", 0⟩,
        ⟨"g1", 2, 2, "d2", "running", 0⟩], []⟩).error = none ∧
    getMaxSaveId ⟨[⟨"g1", 2, 1, "d1", "running", 0⟩,
      ⟨"g1", 2, 2, "d2", "running", 0⟩], []⟩ "g1" = some 2 ∧
    (0 : Nat) ∉ getSaveIds (cleanSaves noFail none 0 "g1"
      ⟨[⟨"g1", 2, 1, "d1", "running", 0⟩,
        ⟨"g1", 2, 2, "d2", "running", 0⟩], []⟩).db "g1" := by
  exact ⟨by decide, by decide, by decide, by decide⟩

/-- C2 amended: when the game additionally has a version-0 row and its
version-0 and highest-version rows are not older than the purge cutoff
(the purge sweep triggered at the end of cleanSaves deletes by age
regardless of status), a fully successful cleanSaves leaves exactly the
version set {0, H} (which is {0} when H = 0) and every surviving row of
the game has status finished. -/
theorem cleanSaves_versions (env : Option String) (now : Int) (g : String)
    (db : DB) (h : Nat)
    (hmax : getMaxSaveId db g = some h)
    (h0 : ∃ r ∈ db.games, r.game_id = g ∧ r.save_id = 0)
    (hfresh : ∀ r ∈ db.games, r.game_id = g → (r.save_id = 0 ∨ r.save_id = h) →
      ¬(r.created_time < purgeCutoff env now)) :
    (cleanSaves noFail env now g db).error = none ∧
    (∀ v, v ∈ getSaveIds (cleanSaves noFail env now g db).db g ↔
      (v = 0 ∨ v = h)) ∧
    (∀ r ∈ (cleanSaves noFail env now g db).db.games, r.game_id = g →
      r.status = "finished") := by
  have hout : cleanSaves noFail env now g db =
      ⟨⟨purgeRows env now (markFinished g (trimRows g h db.games)),
        db.game_results⟩,
       [Step.maxQ, Step.trimQ, Step.statusQ, Step.purgeQ], none⟩ := by
    unfold cleanSaves noFail
    simp [hmax, markFinished]
  rw [hout]
  refine ⟨rfl, ?_, ?_⟩
  · intro v
    constructor
    · intro hv
      unfold getSaveIds at hv
      rw [List.mem_dedup, List.mem_map] at hv
      obtain ⟨r, hr, hs⟩ := hv
      rw [List.mem_filter] at hr
      obtain ⟨hrmem, hrid⟩ := hr
      have hrid2 : r.game_id = g := by simpa using hrid
      rw [mem_purgeRows] at hrmem
      obtain ⟨hrmem, -⟩ := hrmem
      unfold markFinished at hrmem
      rw [List.mem_map] at hrmem
      obtain ⟨r0, hr0, hre⟩ := hrmem
      rw [mem_trimRows] at hr0
      obtain ⟨hr0db, hr0trim⟩ := hr0
      have hid0 : r0.game_id = g := by
        rw [← hrid2, ← hre, finishRow_game_id]
      have hsv : r0.save_id = v := by
        rw [← hs, ← hre, finishRow_save_id]
      have hle := getMaxSaveId_le hmax r0 hr0db hid0
      by_cases hz : r0.save_id = 0
      · left; omega
      · right
        have : ¬(r0.save_id < h ∧ 0 < r0.save_id) := fun hc => hr0trim ⟨hid0, hc⟩
        omega
    · intro hv
      have hsurv : ∀ r0 ∈ db.games, r0.game_id = g → r0.save_id = v →
          v ∈ getSaveIds
            (⟨purgeRows env now (markFinished g (trimRows g h db.games)),
              db.game_results⟩ : DB) g := by
        intro r0 hr0 hid0 hsv
        have hkeep : r0 ∈ trimRows g h db.games := by
          rw [mem_trimRows]
          refine ⟨hr0, fun hc => ?_⟩
          rcases hv with hv | hv <;> omega
        have hfin : finishRow g r0 ∈ markFinished g (trimRows g h db.games) :=
          List.mem_map_of_mem _ hkeep
        have hpur : finishRow g r0 ∈
            purgeRows env now (markFinished g (trimRows g h db.games)) := by
          rw [mem_purgeRows]
          refine ⟨hfin, ?_⟩
          rw [finishRow_created_time]
          exact hfresh r0 hr0 hid0 (by omega)
        unfold getSaveIds
        rw [List.mem_dedup, List.mem_map]
        refine ⟨finishRow g r0, List.mem_filter.mpr ⟨hpur, ?_⟩, ?_⟩
        · simp [finishRow_game_id, hid0]
        · rw [finishRow_save_id]; exact hsv
      rcases hv with hv | hv
      · obtain ⟨r0, hr0, hid0, hs0⟩ := h0
        exact hsurv r0 hr0 hid0 (by omega)
      · obtain ⟨r0, hr0, hid0, hsh⟩ := getMaxSaveId_attained hmax
        exact hsurv r0 hr0 hid0 (by omega)
  · intro r hr hid
    have hr2 : r ∈ markFinished g (trimRows g h db.games) :=
      (mem_purgeRows.mp hr).1
    unfold markFinished at hr2
    rw [List.mem_map] at hr2
    obtain ⟨r0, -, hre⟩ := hr2
    have hid0 : r0.game_id = g := by
      rw [← hid, ← hre, finishRow_game_id]
    rw [← hre, finishRow_status hid0]

/-- C2 witness: a three-version game with fresh rows is collapsed to the
version set {0, 2} with every surviving row finished. -/
theorem cleanSaves_versions_witness :
    (getMaxSaveId ⟨[⟨"g1", 2, 0, "d0", "running", 0⟩,
        ⟨"g1", 2, 1, "d1", "running", 0⟩,
        ⟨"g1", 2, 2, "d2", "running", 0⟩], []⟩ "g1" = some 2) ∧
    ((cleanSaves noFail none 0 "g1"
        ⟨[⟨"g1", 2, 0, "d0", "running", 0⟩,
          ⟨"g1", 2, 1, "d1", "running", 0⟩,
          ⟨"g1", 2, 2, "d2", "running", 0⟩], []⟩).error = none ∧
     (∀ v, v ∈ getSaveIds (cleanSaves noFail none 0 "g1"
        ⟨[⟨"g1", 2, 0, "d0", "running", 0⟩,
          ⟨"g1", 2, 1, "d1", "running", 0⟩,
          ⟨"g1", 2, 2, "d2", "running", 0⟩], []⟩).db "g1" ↔
        (v = 0 ∨ v = 2)) ∧
     (∀ r ∈ (cleanSaves noFail none 0 "g1"
        ⟨[⟨"g1", 2, 0, "d0", "running", 0⟩,
          ⟨"g1", 2, 1, "d1", "running", 0⟩,
          ⟨"g1", 2, 2, "d2", "running", 0⟩], []⟩).db.games,
        r.game_id = "g1" → r.status = "finished")) := by
  refine ⟨by decide, ?_⟩
  exact cleanSaves_versions none 0 "g1"
    ⟨[⟨"g1", 2, 0, "d0", "running", 0⟩,
      ⟨"g1", 2, 1, "d1", "running", 0⟩,
      ⟨"g1", 2, 2, "d2", "running", 0⟩], []⟩ 2
    (by decide)
    ⟨⟨"g1", 2, 0, "d0", "running", 0⟩, by decide⟩
    (by decide)

end PGStore
